import Mathlib
/-!
Verification of the `google-authz` credential-resolution and token-fetching
core against its design description.

The Rust sources are shallowly embedded:
* `std::time::Instant` is modelled as a `Nat` of nanoseconds; `Duration`
  values become `Nat`s of nanoseconds as well.
* Rust `String` values stay Lean `String`s; where byte-level behaviour
  matters (HTTP header validation, URI parsing, percent-encoding) we encode
  to UTF-8 bytes with `utf8EncodeChar`/`strBytes`.
* Fallible Rust returning `Result` becomes `Except`; code that may `panic!`
  (via `unwrap`, `expect` or `assert_eq!`) returns `RustOutcome`, with a
  dedicated `panicked` outcome distinct from an error returned to the caller.
* External collaborators (PEM key parsing from `jsonwebtoken`, `Uri` parsing,
  the filesystem, environment variables and the GCE metadata probe) are
  passed in explicitly as function-valued parameters or `World` fields.
-/
set_option autoImplicit false
/-- Outcome of a Rust computation that may also panic (as opposed to
returning an error value to the caller). -/
inductive RustOutcome (ε : Type) (α : Type) where
  | ok (a : α)
  | err (e : ε)
  | panicked
  deriving DecidableEq, Repr
/-- UTF-8 encoding of a single scalar value, as byte values below 256.
Standard 1–4 byte encoding. -/
def utf8EncodeChar (c : Char) : List Nat :=
  let n := c.toNat
  if n < 0x80 then
    [n]
  else if n < 0x800 then
    [0xC0 + n / 64, 0x80 + n % 64]
  else if n < 0x10000 then
    [0xE0 + n / 4096, 0x80 + n / 64 % 64, 0x80 + n % 64]
  else
    [0xF0 + n / 262144, 0x80 + n / 4096 % 64, 0x80 + n / 64 % 64, 0x80 + n % 64]
/-- The UTF-8 bytes of a string (the bytes a Rust `String`/`str` holds). -/
def strBytes (s : String) : List Nat :=
  s.data.flatMap utf8EncodeChar
/-- `Duration::from_secs` in our nanosecond model of time. -/
def durationFromSecs (s : Nat) : Nat := s * 1000000000
namespace token
/-- `Token` from `auth/oauth2/token.rs`: an authorization header value plus
an expiry instant (nanoseconds). -/
structure Token where
  value : String
  expiry : Nat
  deriving DecidableEq, Repr
/-- `Instant::checked_duration_since`: `some (a - b)` when `b ≤ a`, `none`
when the subtraction would go negative. -/
def checkedDurationSince (a b : Nat) : Option Nat :=
  if b ≤ a then some (a - b) else none
/-- `EXPIRY_DELTA`: ten seconds, in nanoseconds. -/
def EXPIRY_DELTA : Nat := durationFromSecs 10
/-- `Token::expired` from `auth/oauth2/token.rs`. -/
def Token.expired (t : Token) (at_ : Nat) : Bool :=
  match checkedDurationSince t.expiry at_ with
  | some dur => dur < EXPIRY_DELTA
  | none => true
end token
namespace token
/-- `Response` from `auth/oauth2/token.rs`: the two token-exchange reply
shapes (`serde(untagged)`). -/
inductive Response where
  | accessToken (token_type : String) (access_token : String) (expires_in : Nat)
  | idToken (id_token : String)
  deriving DecidableEq, Repr
/-- `auth::Error`, restricted to the variants the embedded code produces. -/
inductive AuthError where
  | tokenFormat (r : Response)
  | gcemeta (msg : String)
  deriving DecidableEq, Repr
/-- The `http` crate's header-value byte predicate (`is_valid` in
`header/value.rs`): `b >= 32 && b != 127 || b == b'\t'`. -/
def validHeaderByte (b : Nat) : Bool :=
  (32 ≤ b && b ≠ 127) || b == 9
/-- `HeaderValue::from_str`: succeeds exactly when every UTF-8 byte of the
string satisfies `validHeaderByte`; the header value keeps the string. -/
def headerValueFromStr (s : String) : Option String :=
  if (strBytes s).all validHeaderByte then some s else none
/-- `impl TryFrom<Response> for Token` from `auth/oauth2/token.rs`.
`now` stands for the `Instant::now()` read inside the conversion. -/
def tryFromResponse (now : Nat) (response : Response) : Except AuthError Token :=
  match response with
  | .accessToken token_type access_token expires_in =>
    if token_type ≠ "" && access_token ≠ "" && expires_in > 0 then
      match headerValueFromStr (token_type ++ " " ++ access_token) with
      | some hv => .ok ⟨hv, now + durationFromSecs expires_in⟩
      | none => .error (.tokenFormat response)
    else
      .error (.tokenFormat response)
  | .idToken id_token =>
    if id_token ≠ "" then
      match headerValueFromStr ("Bearer " ++ id_token) with
      | some hv => .ok ⟨hv, now + durationFromSecs (60 * 60)⟩
      | none => .error (.tokenFormat response)
    else
      .error (.tokenFormat response)
/-- A string is a legal header value iff every character has code point 9
(tab) or a code point in `[32, 0x10FFFF] \ {127}`: every byte of a
multi-byte UTF-8 encoding is at least `0x80`, so only single-byte (ASCII)
characters can violate the byte predicate. -/
def validHeaderChar (c : Char) : Bool :=
  (32 ≤ c.toNat && c.toNat ≠ 127) || c.toNat == 9
/-- Legality of a whole string as an HTTP header value, byte by byte. -/
def validHeaderValue (s : String) : Bool :=
  (strBytes s).all validHeaderByte
end token
namespace metadata
/-- The bytes the `form_urlencoded` serializer leaves unencoded:
ASCII alphanumerics and `*`, `-`, `.`, `_`. -/
def formUrlencodedUnreserved (b : Nat) : Bool :=
  (48 ≤ b && b ≤ 57) || (65 ≤ b && b ≤ 90) || (97 ≤ b && b ≤ 122) ||
    b == 42 || b == 45 || b == 46 || b == 95
/-- Upper-case hexadecimal digit for a value below 16. -/
def hexDigit (n : Nat) : Char :=
  if n < 10 then Char.ofNat (48 + n) else Char.ofNat (55 + n)
/-- `form_urlencoded` serialization of one byte: unreserved bytes stand for
themselves, a space becomes `+`, anything else becomes `%XX`. -/
def encodeByte (b : Nat) : String :=
  if formUrlencodedUnreserved b then String.singleton (Char.ofNat b)
  else if b == 32 then "+"
  else "%" ++ String.singleton (hexDigit (b / 16)) ++ String.singleton (hexDigit (b % 16))
/-- Percent-encoding of a string's UTF-8 bytes, as `serde_urlencoded` does
for query keys and values. -/
def percentEncode (s : String) : String :=
  String.join ((strBytes s).map encodeByte)
/-- `serde_urlencoded::to_string` of a one-field struct: `key=value`, both
sides encoded. -/
def serdeUrlencodedField (k v : String) : String :=
  percentEncode k ++ "=" ++ percentEncode v
/-- `path_and_query` from `auth/oauth2/metadata.rs`, following the
imperative `push_str` sequence. -/
def path_and_query (account : Option String) (scopes : List String)
    (audience : Option String) : String :=
  let s := "/computeMetadata/v1/instance/service-accounts/"
  let s := s ++ (match account with | some a => a | none => "default")
  let s := s ++ (if audience.isSome then "/identity" else "/token")
  match audience with
  | some aud => s ++ "?" ++ serdeUrlencodedField "audience" aud
  | none =>
    if !scopes.isEmpty then
      s ++ "?" ++ serdeUrlencodedField "scopes" (String.intercalate "," scopes)
    else s
/-- The path-and-query string as the design document describes it: the base
ending in a slash after the account name, followed by either the identity
suffix with a percent-encoded audience query, or the token suffix with a
percent-encoded comma-joined scopes query (no query when no scope is
configured). -/
def pathAndQueryDescribed (account : Option String) (scopes : List String)
    (audience : Option String) : String :=
  "/computeMetadata/v1/instance/service-accounts/" ++ account.getD "default" ++ "/" ++
    match audience with
    | some aud => "identity?audience=" ++ percentEncode aud
    | none =>
      if scopes.isEmpty then "token"
      else "token?scopes=" ++ percentEncode (String.intercalate "," scopes)
end metadata
namespace credentials
/-- `credentials::ServiceAccount` from `credentials/mod.rs`: the two
`serde(skip)` fields (injected configuration) followed by the JSON fields. -/
structure ServiceAccount where
  scopes : List String
  audience : Option String
  client_email : String
  private_key_id : String
  private_key : String
  token_uri : String
  deriving DecidableEq, Repr
/-- `credentials::User` from `credentials/mod.rs`. -/
structure User where
  scopes : List String
  client_id : String
  client_secret : String
  refresh_token : String
  deriving DecidableEq, Repr
/-- `credentials::Metadata` from `credentials/mod.rs`; the transport handle
is an external collaborator and is not part of the model. -/
structure Metadata where
  scopes : List String
  account : Option String
  deriving DecidableEq, Repr
/-- `credentials::Credentials`: the five mutually exclusive kinds. -/
inductive Credentials where
  | none
  | apiKey (key : String)
  | user (u : User)
  | serviceAccount (sa : ServiceAccount)
  | metadata (m : Metadata)
  deriving DecidableEq, Repr
end credentials
namespace oauth2
/-- External collaborators of `ServiceAccount::new`: `jsonwebtoken`'s
`EncodingKey::from_rsa_pem` and `hyper`'s `Uri::from_maybe_shared`, both
abstracted as partial parsing functions (`none` = parse failure). -/
structure Ext where
  pemParse : String → Option Nat
  uriParse : String → Option Nat
/-- A JOSE header as built by `header("JWT", key_id)` in
`auth/oauth2/service_account.rs`. -/
structure JwtHeader where
  typ : Option String
  alg : String
  kid : Option String
  deriving DecidableEq, Repr
/-- `header` from `auth/oauth2/service_account.rs`. -/
def header (typ : String) (key_id : String) : JwtHeader :=
  { typ := some typ, alg := "RS256", kid := some key_id }
/-- `oauth2::ServiceAccount` (the fetcher) from
`auth/oauth2/service_account.rs`; the HTTP client is external. The opaque
parsed key and URI values are represented by the `Nat`s the `Ext` parsers
returned. -/
structure ServiceAccount where
  header : JwtHeader
  private_key : Nat
  token_uri : Nat
  token_uri_str : String
  scopes : String
  client_email : String
  audience : Option String
  deriving DecidableEq, Repr
/-- The signing-error kind the design document expects a malformed key to
produce at construction time. -/
inductive SigningError where
  | invalidRsaKey
  deriving DecidableEq, Repr
/-- `ServiceAccount::new` from `auth/oauth2/service_account.rs`: both
`from_rsa_pem` and `Uri::from_maybe_shared` results are `.unwrap()`ed, so a
parse failure panics instead of returning an error. -/
def ServiceAccount.new (ext : Ext) (sa : credentials.ServiceAccount) :
    RustOutcome SigningError ServiceAccount :=
  match ext.pemParse sa.private_key with
  | Option.none => .panicked
  | some key =>
    match ext.uriParse sa.token_uri with
    | Option.none => .panicked
    | some uri =>
      .ok { header := oauth2.header "JWT" sa.private_key_id
            private_key := key
            token_uri := uri
            token_uri_str := sa.token_uri
            scopes := String.intercalate " " sa.scopes
            client_email := sa.client_email
            audience := sa.audience }
/-- `issued_at` from `auth/oauth2/service_account.rs`: the current Unix time
in seconds minus ten. -/
def issued_at (nowSec : Nat) : Nat := nowSec - 10
/-- `EXPIRE` from `ServiceAccount::fetch`. -/
def EXPIRE : Nat := 60 * 60
/-- The JWT claim set `Claims` from `auth/oauth2/service_account.rs`;
`none` stands for a field `serde` skips when absent. -/
structure Claims where
  iss : String
  scope : Option String
  aud : String
  iat : Nat
  exp : Nat
  target_audience : Option String
  sub : Option String
  deriving DecidableEq, Repr
/-- The claim set built inside `ServiceAccount::fetch`, with the
`issued_at()` clock read passed in as `nowSec`. -/
def fetchClaims (f : ServiceAccount) (nowSec : Nat) : Claims :=
  let iat := issued_at nowSec
  { iss := f.client_email
    scope := if f.audience.isSome then Option.none else some f.scopes
    aud := f.token_uri_str
    iat := iat
    exp := iat + EXPIRE
    target_audience := f.audience
    sub := if f.audience.isSome then some f.client_email else Option.none }
end oauth2
/-- Concrete external parsers that accept every key and URI. -/
def extOk : oauth2.Ext := ⟨fun _ => some 0, fun _ => some 0⟩
/-- A concrete service-account credential without an audience. -/
def saScoped : credentials.ServiceAccount :=
  ⟨["s1", "s2"], Option.none, "ce@example.iam", "kid-1", "pem-1", "https://oauth2.example/token"⟩
/-- The fetcher `ServiceAccount::new` yields for `saScoped` under `extOk`. -/
def fScoped : oauth2.ServiceAccount :=
  { header := oauth2.header "JWT" "kid-1"
    private_key := 0
    token_uri := 0
    token_uri_str := "https://oauth2.example/token"
    scopes := "s1 s2"
    client_email := "ce@example.iam"
    audience := Option.none }
/-- External parsers whose PEM parser rejects every key. -/
def extPemFail : oauth2.Ext := ⟨fun _ => Option.none, fun _ => some 0⟩
/-- A concrete credential whose private key the PEM parser rejects. -/
def saBadPem : credentials.ServiceAccount :=
  ⟨[], Option.none, "ce@example.iam", "kid-1", "not a pem", "https://oauth2.example/token"⟩
namespace uri
/-- Bytes the `http` crate accepts unencoded in a URI path
(`PathAndQuery::from_shared`, path section). -/
def validPathByte (b : Nat) : Bool :=
  b == 0x21 || (0x24 ≤ b && b ≤ 0x3B) || b == 0x3D ||
    (0x40 ≤ b && b ≤ 0x5F) || (0x61 ≤ b && b ≤ 0x7A) || b == 0x7C || b == 0x7E
/-- Bytes the `http` crate accepts unencoded in a URI query
(`PathAndQuery::from_shared`, query section). -/
def validQueryByte (b : Nat) : Bool :=
  b == 0x21 || (0x24 ≤ b && b ≤ 0x3B) || b == 0x3D || (0x3F ≤ b && b ≤ 0x7E)
/-- The query loop of `PathAndQuery::from_shared`: collects query bytes, a
`#` silently truncates (the fragment is dropped), an illegal byte fails. -/
def scanQuery : List Nat → Option (List Nat)
  | [] => some []
  | b :: rest =>
    if b == 35 then some []
    else if validQueryByte b then (scanQuery rest).map (fun q => b :: q)
    else none
/-- The path loop of `PathAndQuery::from_shared`: a `?` switches to the
query loop, a `#` truncates, an illegal byte fails. Returns the path bytes
and, when a `?` was seen, the query bytes. -/
def scanPath : List Nat → Option (List Nat × Option (List Nat))
  | [] => some ([], Option.none)
  | b :: rest =>
    if b == 63 then (scanQuery rest).map (fun q => ([], some q))
    else if b == 35 then some ([], Option.none)
    else if validPathByte b then (scanPath rest).map (fun pq => (b :: pq.1, pq.2))
    else none
/-- `PathAndQuery::path`: the path bytes, except that an empty path reads
back as `"/"`. -/
def pathBytes (pq : List Nat × Option (List Nat)) : List Nat :=
  if pq.1.isEmpty then [47] else pq.1
end uri
namespace credentials
/-- A JSON value as far as the credential documents care: a string or
anything else. -/
inductive JVal where
  | str (s : String)
  | other
  deriving DecidableEq, Repr
/-- A JSON document: an object (field list) or any non-object document
(including unparsable input, which deserializes to neither shape). -/
inductive Doc where
  | obj (fields : List (String × JVal))
  | notObj
  deriving DecidableEq, Repr
/-- A `serde` deserialization error for one of the credential shapes. -/
inductive SerdeErr where
  | notObject
  | missingField (k : String)
  | invalidType (k : String)
  | duplicateField (k : String)
  deriving DecidableEq, Repr
/-- Extract a required string field the way `serde`'s derived deserializer
does: missing, non-string and duplicate occurrences of a known field are
errors; unknown fields are ignored. -/
def getStrField (fields : List (String × JVal)) (k : String) :
    Except SerdeErr String :=
  match fields.filter (fun p => p.1 == k) with
  | [] => .error (.missingField k)
  | [(_, .str s)] => .ok s
  | [(_, .other)] => .error (.invalidType k)
  | _ => .error (.duplicateField k)
/-- `serde_json::from_slice::<ServiceAccount>`: needs the four string fields
`client_email`, `private_key_id`, `private_key`, `token_uri`; the
`serde(skip)` fields come out as their defaults. The `type` discriminator is
just another ignored unknown field. -/
def deserializeServiceAccount (d : Doc) : Except SerdeErr ServiceAccount :=
  match d with
  | .notObj => .error .notObject
  | .obj fs => do
    let client_email ← getStrField fs "client_email"
    let private_key_id ← getStrField fs "private_key_id"
    let private_key ← getStrField fs "private_key"
    let token_uri ← getStrField fs "token_uri"
    pure { scopes := [], audience := Option.none, client_email,
           private_key_id, private_key, token_uri }
/-- `serde_json::from_slice::<User>`: needs the three string fields
`client_id`, `client_secret`, `refresh_token`. -/
def deserializeUser (d : Doc) : Except SerdeErr User :=
  match d with
  | .notObj => .error .notObject
  | .obj fs => do
    let client_id ← getStrField fs "client_id"
    let client_secret ← getStrField fs "client_secret"
    let refresh_token ← getStrField fs "refresh_token"
    pure { scopes := [], client_id, client_secret, refresh_token }
/-- The `gcemeta` crate's error, as far as this core distinguishes it. -/
inductive GcemetaErr where
  | uri
  | probe (msg : String)
  deriving DecidableEq, Repr
/-- `credentials::Error` (its `error.rs` is not among the sources; the
variants are modelled from their construction sites in `impls.rs`). -/
inductive Error where
  | apiKeyFormat
  | credentialsSource
  | credentialsFile (io : String)
  | credentialsFormat (user : SerdeErr) (service_account : SerdeErr)
  | gcemeta (e : GcemetaErr)
  deriving DecidableEq, Repr
/-- `from_json` from `credentials/impls.rs`: try the service-account shape
first, then the user shape, injecting the configured scopes/audience into
whichever parses; carry both errors when neither does. -/
def from_json (d : Doc) (scopes : List String) (audience : Option String) :
    Except Error Credentials :=
  match deserializeServiceAccount d with
  | .ok sa =>
    .ok (.serviceAccount { sa with scopes := scopes, audience := audience })
  | .error service_account =>
    match deserializeUser d with
    | .ok u => .ok (.user { u with scopes := scopes })
    | .error user => .error (.credentialsFormat user service_account)
/-- `from_api_key` from `credentials/impls.rs`: parse `"?<key>"` as a
path-and-query (failure is an `ApiKeyFormat` error), then
`assert_eq!(part.query().unwrap_or_default(), &key)` — a mismatch (the `#`
truncation case) panics. -/
def from_api_key (key : String) : RustOutcome Error Credentials :=
  match uri.scanPath (strBytes ("?" ++ key)) with
  | Option.none => .err .apiKeyFormat
  | some pq =>
    if pq.2.getD [] == strBytes key then .ok (.apiKey key) else .panicked
/-- The runtime environment `find_default` probes: the
`GOOGLE_APPLICATION_CREDENTIALS` variable, the well-known gcloud file path
(derived from `HOME`/`APPDATA`), whether a file exists there, file reads,
and the GCE metadata probe `on_gce` (which may itself fail). -/
structure World where
  gacVar : Option String
  wellKnownPath : String
  wellKnownExists : Bool
  readFile : String → Except String Doc
  onGce : Except String Bool
/-- `from_json_file` from `credentials/impls.rs`: a read failure is a
`CredentialsFile` error, otherwise classify the document. -/
def from_json_file (w : World) (path : String) (scopes : List String)
    (audience : Option String) : Except Error Credentials :=
  match w.readFile path with
  | .error e => .error (.credentialsFile e)
  | .ok d => from_json d scopes audience
/-- `from_env` from `credentials/impls.rs`: when the environment variable is
set, the named file must yield credentials (`map Some`, errors propagate);
when unset, the step is inapplicable. -/
def from_env (w : World) (scopes : List String) (audience : Option String) :
    Except Error (Option Credentials) :=
  match w.gacVar with
  | some path => (from_json_file w path scopes audience).map some
  | Option.none => .ok Option.none
/-- `from_well_known_file` from `credentials/impls.rs`: when the well-known
file exists it must yield credentials; when absent, inapplicable. -/
def from_well_known_file (w : World) (scopes : List String)
    (audience : Option String) : Except Error (Option Credentials) :=
  if w.wellKnownExists then
    (from_json_file w w.wellKnownPath scopes audience).map some
  else .ok Option.none
/-- `from_metadata` from `credentials/impls.rs`: an explicit account must
parse as a path (else a `gcemeta` URI error) and read back unchanged (else
the `assert_eq!` panics); then the `on_gce` probe decides between `Metadata`
credentials and inapplicability, its failure propagating. -/
def from_metadata (w : World) (account : Option String)
    (scopes : List String) : RustOutcome Error (Option Credentials) :=
  let probe : RustOutcome Error (Option Credentials) :=
    match w.onGce with
    | .error e => .err (.gcemeta (.probe e))
    | .ok true => .ok (some (.metadata { scopes := scopes, account := account }))
    | .ok false => .ok Option.none
  match account with
  | some a =>
    match uri.scanPath (strBytes a) with
    | Option.none => .err (.gcemeta .uri)
    | some pq => if uri.pathBytes pq == strBytes a then probe else .panicked
  | Option.none => probe
/-- `find_default` from `credentials/impls.rs`: environment variable file,
then well-known file, then metadata service, first applicable source wins;
errors (and panics) short-circuit; nothing applicable is a
`CredentialsSource` error. -/
def find_default (w : World) (scopes : List String)
    (audience : Option String) : RustOutcome Error Credentials :=
  match from_env w scopes audience with
  | .error e => .err e
  | .ok (some c) => .ok c
  | .ok Option.none =>
    match from_well_known_file w scopes audience with
    | .error e => .err e
    | .ok (some c) => .ok c
    | .ok Option.none =>
      match from_metadata w Option.none scopes with
      | .panicked => .panicked
      | .err e => .err e
      | .ok (some c) => .ok c
      | .ok Option.none => .err .credentialsSource
/-- `Source` from `credentials/mod.rs`. -/
inductive Source where
  | none
  | default
  | apiKey (key : String)
  | json (d : Doc)
  | jsonFile (path : String)
  | metadata (account : Option String)
  deriving DecidableEq, Repr
/-- `Builder` from `credentials/mod.rs`. -/
structure Builder where
  scopes : List String
  audience : Option String
  source : Source
  deriving DecidableEq, Repr
/-- `Builder::default()`: the broad platform scope, no audience, the
default resolution chain. -/
def Builder.mkDefault : Builder :=
  { scopes := ["https://www.googleapis.com/auth/cloud-platform"]
    audience := Option.none
    source := .default }
/-- Lift an error-or-value into the panic-aware outcome type. -/
def exceptToOutcome {ε α : Type} : Except ε α → RustOutcome ε α
  | .ok a => .ok a
  | .error e => .err e
/-- `Builder::build` from `credentials/mod.rs`: dispatch on the configured
source; for a forced metadata source, `expect` panics when the probe says
the process is not on GCE. -/
def Builder.build (w : World) (b : Builder) : RustOutcome Error Credentials :=
  match b.source with
  | .none => .ok .none
  | .default => find_default w b.scopes b.audience
  | .apiKey key => from_api_key key
  | .json d => exceptToOutcome (from_json d b.scopes b.audience)
  | .jsonFile path => exceptToOutcome (from_json_file w path b.scopes b.audience)
  | .metadata account =>
    match from_metadata w account b.scopes with
    | .ok (some c) => .ok c
    | .ok Option.none => .panicked
    | .err e => .err e
    | .panicked => .panicked
end credentials
deriving instance DecidableEq for Except
/-- The service-account JSON document of the repository's own test. -/
def saDocEx : credentials.Doc :=
  .obj [("type", .str "service_account"), ("project_id", .str "p"),
    ("private_key_id", .str "[KEY-ID]"), ("private_key", .str "[PK]"),
    ("client_email", .str "[SA-EMAIL]"), ("client_id", .str "[CLIENT-ID]"),
    ("token_uri", .str "https://accounts.google.com/o/oauth2/token")]
/-- The user JSON document of the repository's own test. -/
def userDocEx : credentials.Doc :=
  .obj [("client_id", .str "xxx.apps.googleusercontent.com"),
    ("client_secret", .str "secret-xxx"),
    ("refresh_token", .str "refresh-xxx"),
    ("type", .str "authorized_user")]
/-- An object carrying `type: "authorized_user"`, the full user field set
and the full service-account field set. -/
def bothFieldsEx : List (String × credentials.JVal) :=
  [("type", .str "authorized_user"), ("client_id", .str "cid"),
    ("client_secret", .str "cs"), ("refresh_token", .str "rt"),
    ("client_email", .str "ce"), ("private_key_id", .str "pki"),
    ("private_key", .str "pk"), ("token_uri", .str "tu")]
/-- A world in which both the environment-variable file and the well-known
file exist and parse (to different kinds), and the process is not on GCE. -/
def wBoth : credentials.World :=
  { gacVar := some "/gac.json"
    wellKnownPath := "/wk.json"
    wellKnownExists := true
    readFile := fun p =>
      if p == "/gac.json" then .ok saDocEx
      else if p == "/wk.json" then .ok userDocEx
      else .error "enoent"
    onGce := .ok false }
/-- A world on GCE with no credential files anywhere. -/
def wGce : credentials.World :=
  { gacVar := Option.none
    wellKnownPath := "/wk.json"
    wellKnownExists := false
    readFile := fun _ => .error "enoent"
    onGce := .ok true }
/-- The same world, but the probe reports the process is not on GCE. -/
def wNoGce : credentials.World :=
  { gacVar := Option.none
    wellKnownPath := "/wk.json"
    wellKnownExists := false
    readFile := fun _ => .error "enoent"
    onGce := .ok false }

/-- A string passes `HeaderValue::from_str` iff every character passes
`validHeaderChar`: every byte of a multi-byte UTF-8 encoding is at least
`0x80`, so only single-byte (ASCII) characters can violate the byte
predicate. -/
theorem utf8_bytes_valid_iff (c : Char) :
    (utf8EncodeChar c).all token.validHeaderByte = token.validHeaderChar c := by
  have hv : ∀ b : Nat, 32 ≤ b → b ≠ 127 → token.validHeaderByte b = true := by
    intro b hb1 hb2
    unfold token.validHeaderByte
    simp only [Bool.or_eq_true, Bool.and_eq_true, decide_eq_true_eq,
      beq_iff_eq, ne_eq]
    left; exact ⟨hb1, by simpa using hb2⟩
  unfold utf8EncodeChar
  by_cases h1 : c.toNat < 0x80
  · rw [if_pos h1]
    simp only [List.all_cons, List.all_nil, Bool.and_true]
    rfl
  · have hR : token.validHeaderChar c = true := by
      unfold token.validHeaderChar
      simp only [Bool.or_eq_true, Bool.and_eq_true, decide_eq_true_eq,
        beq_iff_eq, ne_eq]
      left; constructor <;> omega
    rw [if_neg h1, hR]
    by_cases h2 : c.toNat < 0x800
    · rw [if_pos h2]
      simp only [List.all_cons, List.all_nil, Bool.and_true, Bool.and_eq_true]
      exact ⟨hv _ (by omega) (by omega), hv _ (by omega) (by omega)⟩
    · rw [if_neg h2]
      by_cases h3 : c.toNat < 0x10000
      · rw [if_pos h3]
        simp only [List.all_cons, List.all_nil, Bool.and_true, Bool.and_eq_true]
        exact ⟨hv _ (by omega) (by omega), hv _ (by omega) (by omega),
          hv _ (by omega) (by omega)⟩
      · rw [if_neg h3]
        simp only [List.all_cons, List.all_nil, Bool.and_true, Bool.and_eq_true]
        exact ⟨hv _ (by omega) (by omega), hv _ (by omega) (by omega),
          hv _ (by omega) (by omega), hv _ (by omega) (by omega)⟩

/-- C1: for every token and instant, `expired at` is true exactly when the
remaining lifetime `expiry - at` is below ten seconds, a subtraction that
would go negative (`at` past `expiry`) counting as expired; equivalently,
`expiry < at + 10s`. It is false in every other case. -/
theorem c1_token_expired_iff (t : token.Token) (at_ : Nat) :
    t.expired at_ = true ↔ t.expiry < at_ + token.EXPIRY_DELTA := by
  unfold token.Token.expired token.checkedDurationSince
  by_cases h : at_ ≤ t.expiry
  · simp only [h, if_pos, decide_eq_true_eq]
    omega
  · simp only [h, if_neg, not_false_iff]
    constructor
    · intro _; omega
    · intro _; trivial

/-- C2: converting a `Response` to a `Token` succeeds exactly when the
variant's validity condition holds: an `AccessToken` with non-empty
`token_type` and `access_token`, `expires_in > 0` and a legal header value
`"<token_type> <access_token>"` yields that value with expiry
`now + expires_in` seconds; an `IdToken` with non-empty `id_token` and legal
`"Bearer <id_token>"` yields that value with expiry `now + 3600` seconds;
every other input fails with `TokenFormat` carrying the offending response. -/
theorem c2_response_to_token (now : Nat) (r : token.Response) :
    token.tryFromResponse now r =
      match r with
      | .accessToken t a e =>
        if t ≠ "" ∧ a ≠ "" ∧ 0 < e ∧ token.validHeaderValue (t ++ " " ++ a) = true
        then .ok ⟨t ++ " " ++ a, now + durationFromSecs e⟩
        else .error (.tokenFormat r)
      | .idToken i =>
        if i ≠ "" ∧ token.validHeaderValue ("Bearer " ++ i) = true
        then .ok ⟨"Bearer " ++ i, now + durationFromSecs 3600⟩
        else .error (.tokenFormat r) := by
  cases r with
  | accessToken t a e =>
    unfold token.tryFromResponse token.headerValueFromStr token.validHeaderValue
    by_cases ht : t = ""
    · simp [ht]
    · by_cases ha : a = ""
      · simp [ht, ha]
      · by_cases he : 0 < e
        · by_cases hhv :
            (strBytes (t ++ " " ++ a)).all token.validHeaderByte = true
          · simp [ht, ha, he, hhv]
          · simp [ht, ha, he, hhv]
        · simp [ht, ha, he, Nat.not_lt.mp he]
  | idToken i =>
    unfold token.tryFromResponse token.headerValueFromStr token.validHeaderValue
    by_cases hi : i = ""
    · simp [hi]
    · by_cases hhv : (strBytes ("Bearer " ++ i)).all token.validHeaderByte = true
      · simp [hi, hhv]
      · simp [hi, hhv]

theorem append_fold_identity (x : String) :
    "/identity" ++ ("?" ++ ("audience" ++ ("=" ++ x))) = "/" ++ ("identity?audience=" ++ x) := by
  rw [← String.append_assoc, ← String.append_assoc, ← String.append_assoc,
    ← String.append_assoc]
  congr 1

theorem append_fold_token (x : String) :
    "/token" ++ ("?" ++ ("scopes" ++ ("=" ++ x))) = "/" ++ ("token?scopes=" ++ x) := by
  rw [← String.append_assoc, ← String.append_assoc, ← String.append_assoc,
    ← String.append_assoc]
  congr 1

/-- C5: for every account (defaulting to `"default"`), scope list and
optional audience, the metadata path-and-query equals
`/computeMetadata/v1/instance/service-accounts/<account>/` followed by
`identity?audience=<percent-encoded audience>` when an audience is
configured, otherwise `token?scopes=<comma-joined, percent-encoded scopes>`
when at least one scope is configured and bare `token` with no query when
the scope list is empty. -/
theorem c5_path_and_query_described (account : Option String)
    (scopes : List String) (audience : Option String) :
    metadata.path_and_query account scopes audience =
      metadata.pathAndQueryDescribed account scopes audience := by
  have hAud : metadata.percentEncode "audience" = "audience" := by decide
  have hSco : metadata.percentEncode "scopes" = "scopes" := by decide
  have hacct : (match account with | some a => a | none => "default") =
      account.getD "default" := by
    cases account <;> rfl
  cases audience with
  | some aud =>
    simp only [metadata.path_and_query, metadata.pathAndQueryDescribed,
      metadata.serdeUrlencodedField, hAud, hSco, hacct, Option.isSome_some,
      if_true, String.append_assoc]
    rw [append_fold_identity]
  | none =>
    by_cases hs : scopes.isEmpty
    · simp only [metadata.path_and_query, metadata.pathAndQueryDescribed,
        metadata.serdeUrlencodedField, hacct, Option.isSome_none,
        Bool.false_eq_true, if_false, hs, Bool.not_true, String.append_assoc,
        if_true]
      rfl
    · simp only [metadata.path_and_query, metadata.pathAndQueryDescribed,
        metadata.serdeUrlencodedField, hAud, hSco, hacct, Option.isSome_none,
        Bool.false_eq_true, if_false, hs, String.append_assoc]
      rw [append_fold_token]
      simp

/-- C4: every successfully constructed `ServiceAccount` fetcher builds, on
each fetch at current time `now` (seconds), a claim set with `iss` the
client email, `aud` the configured token endpoint URL, `iat = now - 10`
(so `iat + 10 = now`), `exp = iat + 3600`; with an audience configured the
`scope` is omitted, `sub` is the client email and `target_audience` is the
audience; otherwise `scope` is the space-joined requested scopes and `sub`
and `target_audience` are omitted. -/
theorem c4_service_account_claims (ext : oauth2.Ext)
    (sa : credentials.ServiceAccount) (f : oauth2.ServiceAccount) (now : Nat)
    (hnew : oauth2.ServiceAccount.new ext sa = .ok f) (hnow : 10 ≤ now) :
    (oauth2.fetchClaims f now).iss = sa.client_email ∧
    (oauth2.fetchClaims f now).aud = sa.token_uri ∧
    (oauth2.fetchClaims f now).iat = now - 10 ∧
    (oauth2.fetchClaims f now).iat + 10 = now ∧
    (oauth2.fetchClaims f now).exp = (oauth2.fetchClaims f now).iat + 3600 ∧
    (∀ aud, sa.audience = some aud →
      (oauth2.fetchClaims f now).scope = Option.none ∧
      (oauth2.fetchClaims f now).sub = some sa.client_email ∧
      (oauth2.fetchClaims f now).target_audience = some aud) ∧
    (sa.audience = Option.none →
      (oauth2.fetchClaims f now).scope = some (String.intercalate " " sa.scopes) ∧
      (oauth2.fetchClaims f now).sub = Option.none ∧
      (oauth2.fetchClaims f now).target_audience = Option.none) := by
  cases hp : ext.pemParse sa.private_key with
  | none =>
    simp only [oauth2.ServiceAccount.new, hp] at hnew
    exact nomatch hnew
  | some key =>
    cases hu : ext.uriParse sa.token_uri with
    | none =>
      simp only [oauth2.ServiceAccount.new, hp, hu] at hnew
      exact nomatch hnew
    | some uri =>
      simp only [oauth2.ServiceAccount.new, hp, hu, RustOutcome.ok.injEq] at hnew
      subst hnew
      refine ⟨rfl, rfl, rfl, by simp [oauth2.fetchClaims, oauth2.issued_at]; omega,
        by simp [oauth2.fetchClaims, oauth2.EXPIRE], ?_, ?_⟩
      · intro aud haud
        simp [oauth2.fetchClaims, haud]
      · intro haud
        simp [oauth2.fetchClaims, haud]

theorem c4_service_account_claims_witness :
    oauth2.ServiceAccount.new extOk saScoped = .ok fScoped ∧
    (oauth2.fetchClaims fScoped 100).iat = 90 ∧
    (oauth2.fetchClaims fScoped 100).exp = 3690 ∧
    (oauth2.fetchClaims fScoped 100).scope = some "s1 s2" ∧
    (oauth2.fetchClaims fScoped 100).sub = Option.none := by
  have hnew : oauth2.ServiceAccount.new extOk saScoped = .ok fScoped := by decide
  have h := c4_service_account_claims extOk saScoped fScoped 100 hnew (by norm_num)
  refine ⟨hnew, h.2.2.1, ?_, (h.2.2.2.2.2.2 rfl).1, (h.2.2.2.2.2.2 rfl).2.1⟩
  have he := h.2.2.2.2.1
  rw [he, h.2.2.1]

/-- C7 counterexample: with a malformed PEM private key, `ServiceAccount::new`
does not return a signing error to the caller — it `unwrap()`s and panics. -/
theorem c7_counterexample :
    extPemFail.pemParse saBadPem.private_key = Option.none ∧
    ¬ ∃ e, oauth2.ServiceAccount.new extPemFail saBadPem = RustOutcome.err e := by
  refine ⟨rfl, ?_⟩
  rintro ⟨e, h⟩
  simp [oauth2.ServiceAccount.new, extPemFail] at h

/-- C7 amended: constructing a `ServiceAccount` fetcher from credentials
whose PEM private key is malformed aborts with a panic at construction time
(the `unwrap()` of `EncodingKey::from_rsa_pem`), rather than returning an
error value to the caller. -/
theorem c7_new_bad_pem_panics (ext : oauth2.Ext)
    (sa : credentials.ServiceAccount)
    (h : ext.pemParse sa.private_key = Option.none) :
    oauth2.ServiceAccount.new ext sa = .panicked := by
  simp only [oauth2.ServiceAccount.new, h]

theorem c7_new_bad_pem_panics_witness :
    extPemFail.pemParse saBadPem.private_key = Option.none ∧
    oauth2.ServiceAccount.new extPemFail saBadPem = .panicked :=
  ⟨rfl, c7_new_bad_pem_panics extPemFail saBadPem rfl⟩

theorem strBytes_append (a b : String) :
    strBytes (a ++ b) = strBytes a ++ strBytes b := by
  simp [strBytes, String.data_append]

theorem strBytes_qmark (key : String) :
    strBytes ("?" ++ key) = 63 :: strBytes key := by
  rw [strBytes_append]
  rfl

theorem scanQuery_all_valid (l : List Nat)
    (h : l.all uri.validQueryByte = true) : uri.scanQuery l = some l := by
  induction l with
  | nil => rfl
  | cons b rest ih =>
    simp only [List.all_cons, Bool.and_eq_true] at h
    have hb35 : b ≠ 35 := by
      rintro rfl
      exact absurd h.1 (by decide)
    simp [uri.scanQuery, h.1, hb35, ih h.2, beq_iff_eq]

/-- C9 counterexample: for the key `"a#b"`, the string `"?a#b"` parses as a
valid path-and-query (the `#` truncates the fragment), yet `from_api_key`
neither succeeds nor returns an `ApiKeyFormat` error — the internal
`assert_eq!` on the read-back query fails, a panic. -/
theorem c9_counterexample :
    (uri.scanPath (strBytes ("?" ++ "a#b"))).isSome = true ∧
    credentials.from_api_key "a#b" ≠ .ok (.apiKey "a#b") ∧
    credentials.from_api_key "a#b" = RustOutcome.panicked := by decide

/-- C9 amended: `from_api_key key` returns `ApiKey(key)` exactly when
`"?<key>"` parses as a valid path-and-query AND the parsed query reads back
equal to the key; a parse failure (e.g. a non-ASCII byte) is rejected with
an `ApiKeyFormat` error, while a parse whose query differs from the key
(the `#`-truncation case) panics on the internal assertion instead of
returning. A key made only of query-legal bytes always succeeds. -/
theorem c9_from_api_key_spec (key : String) :
    (uri.scanPath (strBytes ("?" ++ key)) = Option.none →
      credentials.from_api_key key = .err .apiKeyFormat) ∧
    (∀ pq, uri.scanPath (strBytes ("?" ++ key)) = some pq →
      (pq.2.getD [] = strBytes key →
        credentials.from_api_key key = .ok (.apiKey key)) ∧
      (pq.2.getD [] ≠ strBytes key →
        credentials.from_api_key key = .panicked)) ∧
    ((strBytes key).all uri.validQueryByte = true →
      credentials.from_api_key key = .ok (.apiKey key)) := by
  refine ⟨?_, ?_, ?_⟩
  · intro h
    simp [credentials.from_api_key, h]
  · intro pq h
    constructor
    · intro heq
      simp [credentials.from_api_key, h, heq]
    · intro hne
      simp [credentials.from_api_key, h, beq_iff_eq, hne]
  · intro hall
    have hq : uri.scanQuery (strBytes key) = some (strBytes key) :=
      scanQuery_all_valid _ hall
    have hs : uri.scanPath (strBytes ("?" ++ key)) =
        some ([], some (strBytes key)) := by
      rw [strBytes_qmark]
      simp [uri.scanPath, hq]
    simp [credentials.from_api_key, hs]

theorem c9_from_api_key_spec_witness :
    credentials.from_api_key "api-key" = .ok (.apiKey "api-key") ∧
    credentials.from_api_key "こんにちは" = .err .apiKeyFormat := by
  constructor
  · exact (c9_from_api_key_spec "api-key").2.2 (by decide)
  · exact (c9_from_api_key_spec "こんにちは").1 (by decide)

/-- C6: classification tries the service-account shape first and keeps its
success (scopes and audience injected); only on failure does it try the
user shape (scopes injected); when both fail the single error carries both
parse failures. -/
theorem c6_from_json_order (d : credentials.Doc) (scopes : List String)
    (audience : Option String) :
    (∀ sa, credentials.deserializeServiceAccount d = .ok sa →
      credentials.from_json d scopes audience =
        .ok (.serviceAccount { sa with scopes := scopes, audience := audience })) ∧
    (∀ e u, credentials.deserializeServiceAccount d = .error e →
      credentials.deserializeUser d = .ok u →
      credentials.from_json d scopes audience =
        .ok (.user { u with scopes := scopes })) ∧
    (∀ e1 e2, credentials.deserializeServiceAccount d = .error e1 →
      credentials.deserializeUser d = .error e2 →
      credentials.from_json d scopes audience =
        .error (.credentialsFormat e2 e1)) := by
  refine ⟨?_, ?_, ?_⟩
  · intro sa h
    simp [credentials.from_json, h]
  · intro e u hsa hu
    simp [credentials.from_json, hsa, hu]
  · intro e1 e2 hsa hu
    simp [credentials.from_json, hsa, hu]

theorem c6_from_json_order_witness :
    credentials.from_json saDocEx ["s"] (some "aud") =
      .ok (.serviceAccount ⟨["s"], some "aud", "[SA-EMAIL]", "[KEY-ID]",
        "[PK]", "https://accounts.google.com/o/oauth2/token"⟩) ∧
    credentials.from_json userDocEx [] Option.none =
      .ok (.user ⟨[], "xxx.apps.googleusercontent.com", "secret-xxx",
        "refresh-xxx"⟩) ∧
    credentials.from_json .notObj [] Option.none =
      .error (.credentialsFormat .notObject .notObject) := by
  refine ⟨?_, ?_, ?_⟩
  · exact (c6_from_json_order saDocEx ["s"] (some "aud")).1
      ⟨[], Option.none, "[SA-EMAIL]", "[KEY-ID]", "[PK]",
        "https://accounts.google.com/o/oauth2/token"⟩ (by decide)
  · exact (c6_from_json_order userDocEx [] Option.none).2.1
      (.missingField "client_email")
      ⟨[], "xxx.apps.googleusercontent.com", "secret-xxx", "refresh-xxx"⟩
      (by decide) (by decide)
  · exact (c6_from_json_order .notObj [] Option.none).2.2
      .notObject .notObject (by decide) (by decide)

/-- C10: classification looks only at which field names are present, never
at the `type` discriminator: any object carrying the four service-account
string fields — whatever its `type` says and whatever user fields it also
carries — is classified as a `ServiceAccount`, never as a `User`. -/
theorem c10_classification_ignores_type
    (fields : List (String × credentials.JVal)) (scopes : List String)
    (audience : Option String) (s1 s2 s3 s4 : String)
    (h1 : credentials.getStrField fields "client_email" = .ok s1)
    (h2 : credentials.getStrField fields "private_key_id" = .ok s2)
    (h3 : credentials.getStrField fields "private_key" = .ok s3)
    (h4 : credentials.getStrField fields "token_uri" = .ok s4) :
    credentials.from_json (.obj fields) scopes audience =
      .ok (.serviceAccount ⟨scopes, audience, s1, s2, s3, s4⟩) := by
  have hsa : credentials.deserializeServiceAccount (.obj fields) =
      .ok ⟨[], Option.none, s1, s2, s3, s4⟩ := by
    simp [credentials.deserializeServiceAccount, h1, h2, h3, h4, Bind.bind,
      Except.bind, Pure.pure, Except.pure]
  simp [credentials.from_json, hsa]

theorem c10_classification_ignores_type_witness :
    credentials.from_json (.obj bothFieldsEx) [] Option.none =
      .ok (.serviceAccount ⟨[], Option.none, "ce", "pki", "pk", "tu"⟩) ∧
    credentials.deserializeUser (.obj bothFieldsEx) =
      .ok ⟨[], "cid", "cs", "rt"⟩ :=
  ⟨c10_classification_ignores_type bothFieldsEx [] Option.none
      "ce" "pki" "pk" "tu" (by decide) (by decide) (by decide) (by decide),
    by decide⟩

/-- C3: the default chain tries the environment-variable file, the
well-known file, then the metadata service, in that order, short-circuiting
at the first applicable source. A set environment variable makes the result
exactly that file's parse outcome — hard failure or its content, no
fallthrough (so when both files would parse, the environment file's content
wins); with neither file applicable the metadata probe decides between
`Metadata` credentials, the `CredentialsSource` error, and a propagated
probe failure. -/
theorem c3_find_default_chain (w : credentials.World) (scopes : List String)
    (audience : Option String) :
    (∀ path, w.gacVar = some path →
      credentials.find_default w scopes audience =
        credentials.exceptToOutcome
          (credentials.from_json_file w path scopes audience)) ∧
    (w.gacVar = Option.none → w.wellKnownExists = true →
      credentials.find_default w scopes audience =
        credentials.exceptToOutcome
          (credentials.from_json_file w w.wellKnownPath scopes audience)) ∧
    (w.gacVar = Option.none → w.wellKnownExists = false →
      (w.onGce = .ok true →
        credentials.find_default w scopes audience =
          .ok (.metadata { scopes := scopes, account := Option.none })) ∧
      (w.onGce = .ok false →
        credentials.find_default w scopes audience = .err .credentialsSource) ∧
      (∀ e, w.onGce = .error e →
        credentials.find_default w scopes audience =
          .err (.gcemeta (.probe e)))) := by
  refine ⟨?_, ?_, ?_⟩
  · intro path hp
    cases hres : credentials.from_json_file w path scopes audience with
    | ok c =>
      simp [credentials.find_default, credentials.from_env, hp, hres,
        credentials.exceptToOutcome, Except.map]
    | error e =>
      simp [credentials.find_default, credentials.from_env, hp, hres,
        credentials.exceptToOutcome, Except.map]
  · intro h1 h2
    cases hres : credentials.from_json_file w w.wellKnownPath scopes audience with
    | ok c =>
      simp [credentials.find_default, credentials.from_env,
        credentials.from_well_known_file, h1, h2, hres,
        credentials.exceptToOutcome, Except.map]
    | error e =>
      simp [credentials.find_default, credentials.from_env,
        credentials.from_well_known_file, h1, h2, hres,
        credentials.exceptToOutcome, Except.map]
  · intro h1 h2
    refine ⟨?_, ?_, ?_⟩
    · intro h3
      simp [credentials.find_default, credentials.from_env,
        credentials.from_well_known_file, credentials.from_metadata, h1, h2, h3]
    · intro h3
      simp [credentials.find_default, credentials.from_env,
        credentials.from_well_known_file, credentials.from_metadata, h1, h2, h3]
    · intro e h3
      simp [credentials.find_default, credentials.from_env,
        credentials.from_well_known_file, credentials.from_metadata, h1, h2, h3]

theorem c3_find_default_chain_witness :
    credentials.from_json_file wBoth "/wk.json" [] Option.none =
      .ok (.user ⟨[], "xxx.apps.googleusercontent.com", "secret-xxx",
        "refresh-xxx"⟩) ∧
    credentials.find_default wBoth [] Option.none =
      .ok (.serviceAccount ⟨[], Option.none, "[SA-EMAIL]", "[KEY-ID]",
        "[PK]", "https://accounts.google.com/o/oauth2/token"⟩) := by
  refine ⟨by decide, ?_⟩
  have h := (c3_find_default_chain wBoth [] Option.none).1 "/gac.json" rfl
  exact h.trans (by decide)

/-- C8: with the builder's source forced to metadata (and a well-formed
account name), a probe answering "not on GCE" makes `build()` panic (the
`expect`), not return an error value; a probe answering "on GCE" makes
`build()` return `Metadata` credentials with the configured account and
scopes. -/
theorem c8_forced_metadata (w : credentials.World) (b : credentials.Builder)
    (account : Option String) (hsrc : b.source = .metadata account)
    (hacct : ∀ a, account = some a →
      uri.scanPath (strBytes a) = some (strBytes a, Option.none) ∧
      strBytes a ≠ []) :
    (w.onGce = .ok false → credentials.Builder.build w b = .panicked) ∧
    (w.onGce = .ok true →
      credentials.Builder.build w b =
        .ok (.metadata { scopes := b.scopes, account := account })) := by
  cases account with
  | none =>
    constructor
    · intro hg
      simp [credentials.Builder.build, hsrc, credentials.from_metadata, hg]
    · intro hg
      simp [credentials.Builder.build, hsrc, credentials.from_metadata, hg]
  | some a =>
    obtain ⟨hscan, hne⟩ := hacct a rfl
    cases hsb : strBytes a with
    | nil => exact absurd hsb hne
    | cons x xs =>
      rw [hsb] at hscan
      constructor
      · intro hg
        simp [credentials.Builder.build, hsrc, credentials.from_metadata,
          hsb, hscan, uri.pathBytes, hg]
      · intro hg
        simp [credentials.Builder.build, hsrc, credentials.from_metadata,
          hsb, hscan, uri.pathBytes, hg]

theorem c8_forced_metadata_witness :
    credentials.Builder.build wNoGce ⟨["s"], Option.none, .metadata (some "acct")⟩ =
      .panicked ∧
    credentials.Builder.build wGce ⟨["s"], Option.none, .metadata (some "acct")⟩ =
      .ok (.metadata ⟨["s"], some "acct"⟩) := by
  have hacct : ∀ a, (some "acct" : Option String) = some a →
      uri.scanPath (strBytes a) = some (strBytes a, Option.none) ∧
      strBytes a ≠ [] := by
    intro a ha
    injection ha with ha
    subst ha
    exact ⟨by decide, by decide⟩
  constructor
  · exact (c8_forced_metadata wNoGce ⟨["s"], Option.none, .metadata (some "acct")⟩
      (some "acct") rfl hacct).1 rfl
  · exact (c8_forced_metadata wGce ⟨["s"], Option.none, .metadata (some "acct")⟩
      (some "acct") rfl hacct).2 rfl
